import Mathlib

/-
Verification of the DeepSparse generation adapter
(libs/langchain/langchain/llms/deepsparse.py).

The adapter wraps an opaque inference pipeline behind synchronous,
asynchronous and streaming generate operations, optionally truncating
the output at stop sequences.  The pipeline itself is external; it is
modelled as a structure of abstract functions (run and streamTokens).
Side effects that the claims talk about (pipeline invocations, worker
thread start/join, chunk emission, callback notification) are made
explicit as event traces.
-/

namespace DeepSparseSpec

/-- One incrementally produced fragment of generated text during
streaming (langchain.schema.output.GenerationChunk, only the text field
is used by the adapter). -/
structure GenerationChunk where
  text : String
deriving Repr, DecidableEq

/-- Result of invoking the pipeline directly: an object exposing a list
of generated text sequences (pipeline(sequences=prompt).sequences). -/
structure PipelineOutput where
  sequences : List String
deriving Repr, DecidableEq

/-- Opaque inference pipeline handle.  `run` models calling the pipeline
directly with a prompt; `streamTokens` models the finite sequence of
tokens the TextIteratorStreamer yields while a worker thread runs the
pipeline with that prompt and the streamer attached. -/
structure Pipeline where
  run : String → PipelineOutput
  streamTokens : String → List String

/-- The adapter instance (class DeepSparse).  `streaming` carries the
source default `streaming: bool = False`; `config` the source default
`config: Optional[Dict] = None`. -/
structure DeepSparse where
  pipeline : Pipeline
  model : String
  config : Option (List (String × String)) := none
  streaming : Bool := false

/-- True exactly when some stop string is a prefix of `t` (a match of
the stop alternation starts at this position). -/
def stopMatchesAt (stop : List (List Char)) (t : List Char) : Bool :=
  stop.any fun s => s.isPrefixOf t

/-- Scan the text left to right and cut it at the first position where
some stop string matches; keep everything if none ever matches. -/
def cutAtStop (stop : List (List Char)) : List Char → List Char
  | [] => []
  | c :: rest => if stopMatchesAt stop (c :: rest) then [] else c :: cutAtStop stop rest

/-- Modelled from the spec: `enforce_stop_tokens` lives in
langchain/llms/utils.py, which is not among the provided sources; the
spec describes it as "generation output is truncated at its first
occurrence" of a stop sequence treated as a literal string, implemented
by splitting the text on the regex alternation of the stop strings and
keeping the first piece.  An empty stop list joins to the empty
pattern, which matches before the first character, so the first piece
is empty. -/
def enforceStopList (stop : List (List Char)) (text : List Char) : List Char :=
  if stop.isEmpty then [] else cutAtStop stop text

/-- Modelled from the spec: string-level wrapper for `enforceStopList`
(the missing langchain/llms/utils.py function `enforce_stop_tokens`). -/
def enforce_stop_tokens (text : String) (stop : List String) : String :=
  String.mk (enforceStopList (stop.map String.data) text.data)

/-- Positions (in ascending order) at which some stop string occurs in
`t`, written directly from the spec's words "the earliest occurrence of
any stop sequence": position `i` is an occurrence when some stop string
is a prefix of the text from `i` on. -/
def matchPositions (stop : List (List Char)) (t : List Char) : List Nat :=
  (List.range (t.length + 1)).filter fun i => stopMatchesAt stop (t.drop i)

/-- Spec-side truncation, from the spec's words: truncate at the
earliest occurrence of any stop sequence; if no stop sequence occurs,
return the text unmodified. -/
def specStopTruncate (stop : List (List Char)) (t : List Char) : List Char :=
  match matchPositions stop t with
  | [] => t
  | i :: _ => t.take i

/-- Observable side effects of a generate or stream call, recorded in
program order: direct or worker pipeline invocations, worker thread
start and join, chunk yields, and callback notifications
(run_manager.on_llm_new_token). -/
inductive CallEvent where
  | pipelineInvoked (prompt : String)
  | workerStarted
  | workerJoined
  | chunkYielded (chunk : GenerationChunk)
  | callbackNotified (token : String)
deriving Repr, DecidableEq

/-- Body of the streaming loop `for token in streamer`: each token is
wrapped in a GenerationChunk and yielded, then, if a run_manager was
supplied, reported via on_llm_new_token. -/
def streamBody (hasRunManager : Bool) : List String → List CallEvent
  | [] => []
  | token :: rest =>
      CallEvent.chunkYielded ⟨token⟩ ::
        ((if hasRunManager then [CallEvent.callbackNotified token] else []) ++
          streamBody hasRunManager rest)

/-- Trace of DeepSparse._stream: start the worker thread (which invokes
the pipeline with the prompt and the streamer), drain the streamer
yielding chunks and notifying the callback, then join the thread.  The
`stop` argument is accepted but never used, mirroring the source. -/
def DeepSparse.streamTrace (llm : DeepSparse) (prompt : String)
    (stop : Option (List String)) (hasRunManager : Bool) : List CallEvent :=
  CallEvent.workerStarted :: CallEvent.pipelineInvoked prompt ::
    (streamBody hasRunManager (llm.pipeline.streamTokens prompt) ++ [CallEvent.workerJoined])

/-- Trace of DeepSparse._astream, a textual copy of DeepSparse._stream
in the source (only the awaiting of on_llm_new_token differs). -/
def DeepSparse.astreamTrace (llm : DeepSparse) (prompt : String)
    (stop : Option (List String)) (hasRunManager : Bool) : List CallEvent :=
  CallEvent.workerStarted :: CallEvent.pipelineInvoked prompt ::
    (streamBody hasRunManager (llm.pipeline.streamTokens prompt) ++ [CallEvent.workerJoined])

/-- Chunks yielded along a trace, in emission order. -/
def chunksOf (trace : List CallEvent) : List GenerationChunk :=
  trace.filterMap fun e =>
    match e with
    | CallEvent.chunkYielded c => some c
    | _ => none

/-- Tokens reported to the callback observer along a trace, in order. -/
def notifiedTokens (trace : List CallEvent) : List String :=
  trace.filterMap fun e =>
    match e with
    | CallEvent.callbackNotified t => some t
    | _ => none

/-- String concatenation of a list, mirroring the accumulation
`combined_output += chunk.text` started from the empty string. -/
def concatStrings (l : List String) : String :=
  l.foldl (fun a b => a ++ b) ""

/-- First half of DeepSparse._call: obtain the full text, either by
draining the stream and concatenating chunk texts (streaming) or by
invoking the pipeline directly and taking sequences[0] (non-streaming,
`none` when the engine returns no sequence).  Paired with the events the
branch performs. -/
def DeepSparse.fullTextTraced (llm : DeepSparse) (prompt : String)
    (stop : Option (List String)) (hasRunManager : Bool) :
    List CallEvent × Option String :=
  if llm.streaming then
    let trace := llm.streamTrace prompt stop hasRunManager
    (trace, some (concatStrings ((chunksOf trace).map GenerationChunk.text)))
  else
    ([CallEvent.pipelineInvoked prompt], (llm.pipeline.run prompt).sequences.head?)

/-- First half of DeepSparse._acall, a textual copy of the _call logic
over the async stream. -/
def DeepSparse.afullTextTraced (llm : DeepSparse) (prompt : String)
    (stop : Option (List String)) (hasRunManager : Bool) :
    List CallEvent × Option String :=
  if llm.streaming then
    let trace := llm.astreamTrace prompt stop hasRunManager
    (trace, some (concatStrings ((chunksOf trace).map GenerationChunk.text)))
  else
    ([CallEvent.pipelineInvoked prompt], (llm.pipeline.run prompt).sequences.head?)

/-- Second half of _call and _acall: `if stop is not None:
text = enforce_stop_tokens(text, stop)`. -/
def applyStop (stop : Option (List String)) (text : String) : String :=
  match stop with
  | none => text
  | some stopList => enforce_stop_tokens text stopList

/-- DeepSparse._call with its event trace. -/
def DeepSparse.callTraced (llm : DeepSparse) (prompt : String)
    (stop : Option (List String)) (hasRunManager : Bool) :
    List CallEvent × Option String :=
  let r := llm.fullTextTraced prompt stop hasRunManager
  (r.1, r.2.map (applyStop stop))

/-- DeepSparse._acall with its event trace. -/
def DeepSparse.acallTraced (llm : DeepSparse) (prompt : String)
    (stop : Option (List String)) (hasRunManager : Bool) :
    List CallEvent × Option String :=
  let r := llm.afullTextTraced prompt stop hasRunManager
  (r.1, r.2.map (applyStop stop))

/-- The string returned by synchronous generate (DeepSparse._call);
`none` models the IndexError raised by sequences[0] on an empty result. -/
def DeepSparse.call (llm : DeepSparse) (prompt : String)
    (stop : Option (List String)) : Option String :=
  (llm.callTraced prompt stop false).2

/-- The string returned by asynchronous generate (DeepSparse._acall). -/
def DeepSparse.acall (llm : DeepSparse) (prompt : String)
    (stop : Option (List String)) : Option String :=
  (llm.acallTraced prompt stop false).2

/-- Availability of the external engine library together with its
pipeline-creation entry point Pipeline.create(task, model_path, kwargs). -/
structure Env where
  deepsparseAvailable : Bool
  createPipeline : String → String → List (String × String) → Pipeline

/-- Record of an invocation of the engine's pipeline-creation entry
point. -/
inductive CreateEvent where
  | createInvoked (task : String) (modelPath : String) (kwargs : List (String × String))
deriving Repr, DecidableEq

/-- Errors surfaced at adapter construction time. -/
inductive ConstructError where
  | dependencyMissing (message : String)
deriving Repr, DecidableEq

/-- DeepSparse.validate_environment: try to import deepsparse, failing
with an ImportError naming the install step before anything else;
otherwise call Pipeline.create with task "text_generation", the model
identifier, and the user configuration (None becomes an empty mapping)
merged in as keyword options.  Returns the pipeline-creation events
performed alongside the outcome. -/
def validate_environment (env : Env) (model : String)
    (config : Option (List (String × String))) :
    List CreateEvent × Except ConstructError Pipeline :=
  if env.deepsparseAvailable then
    let cfg := config.getD []
    ([CreateEvent.createInvoked "text_generation" model cfg],
      Except.ok (env.createPipeline "text_generation" model cfg))
  else
    ([], Except.error (ConstructError.dependencyMissing
      "Could not import `deepsparse` package. Please install it with `pip install deepsparse`"))

/-- Concrete deterministic pipeline used to instantiate the theorems:
the direct invocation always returns the spec's example sentence. -/
def catPipeline : Pipeline :=
  { run := fun _ => ⟨["Once upon a time there was a cat."]⟩
    streamTokens := fun _ => [] }

/-- Concrete non-streaming adapter over `catPipeline`. -/
def catLLM : DeepSparse :=
  { pipeline := catPipeline, model := "m", config := none, streaming := false }

/-- Concrete streaming adapter whose engine emits the spec's example
chunks and whose direct invocation returns their concatenation. -/
def streamLLM : DeepSparse :=
  { pipeline :=
      { run := fun _ => ⟨["Once upon a time"]⟩
        streamTokens := fun _ => ["Once", " upon", " a", " time"] }
    model := "m"
    config := none
    streaming := true }

/-- Concrete non-streaming adapter whose engine output is "hello";
constructed without mentioning the streaming flag, so it also exercises
the structure default. -/
def helloLLM : DeepSparse :=
  { pipeline := { run := fun _ => ⟨["hello"]⟩, streamTokens := fun _ => [] }
    model := "m" }

/-- Environment in which the deepsparse package cannot be imported. -/
def envMissing : Env :=
  { deepsparseAvailable := false, createPipeline := fun _ _ _ => catPipeline }

/-- Environment in which the deepsparse package is importable. -/
def envPresent : Env :=
  { deepsparseAvailable := true, createPipeline := fun _ _ _ => catPipeline }

theorem matchPositions_nil (stop : List (List Char)) :
    matchPositions stop [] = if stopMatchesAt stop [] then [0] else [] := by
  have h1 : List.range 1 = [0] := rfl
  simp only [matchPositions, List.length_nil, Nat.zero_add, h1, List.filter_cons,
    List.filter_nil, List.drop_nil]

theorem matchPositions_cons (stop : List (List Char)) (c : Char) (rest : List Char) :
    matchPositions stop (c :: rest) =
      (if stopMatchesAt stop (c :: rest) then [0] else []) ++
        (matchPositions stop rest).map (· + 1) := by
  simp only [matchPositions, List.length_cons]
  rw [List.range_succ_eq_map, List.filter_cons]
  cases h : stopMatchesAt stop (c :: rest) <;>
    simp [h, List.filter_map, Function.comp_def, List.drop_succ_cons, Nat.succ_eq_add_one]

/-- The left-to-right scan of `cutAtStop` computes exactly the spec's
"truncate at the earliest occurrence, unmodified if none" function. -/
theorem cutAtStop_eq_specStopTruncate (stop : List (List Char)) (t : List Char) :
    cutAtStop stop t = specStopTruncate stop t := by
  induction t with
  | nil =>
    rw [specStopTruncate, matchPositions_nil]
    cases h : stopMatchesAt stop [] <;> simp [cutAtStop]
  | cons c rest ih =>
    rw [specStopTruncate, matchPositions_cons]
    cases h : stopMatchesAt stop (c :: rest)
    · simp only [Bool.false_eq_true, if_false, List.nil_append]
      cases hm : matchPositions stop rest with
      | nil =>
        have h2 : cutAtStop stop rest = rest := by
          rw [ih, specStopTruncate, hm]
        simp [cutAtStop, h, h2]
      | cons i tl =>
        have h2 : cutAtStop stop rest = rest.take i := by
          rw [ih, specStopTruncate, hm]
        simp [cutAtStop, h, h2, List.take_succ_cons]
    · simp [cutAtStop, h]

/-- On a non-empty stop list the missing utility agrees with the spec's
earliest-occurrence truncation. -/
theorem enforce_stop_tokens_eq_spec (text : String) (stop : List String) (h : stop ≠ []) :
    enforce_stop_tokens text stop =
      String.mk (specStopTruncate (stop.map String.data) text.data) := by
  cases stop with
  | nil => exact absurd rfl h
  | cons s rest =>
    simp only [enforce_stop_tokens, enforceStopList, List.map_cons, List.isEmpty_cons,
      Bool.false_eq_true, if_false, cutAtStop_eq_specStopTruncate]

theorem afullTextTraced_eq (llm : DeepSparse) (prompt : String)
    (stop : Option (List String)) (hrm : Bool) :
    llm.afullTextTraced prompt stop hrm = llm.fullTextTraced prompt stop hrm := rfl

theorem chunksOf_streamBody (hrm : Bool) (tokens : List String) :
    chunksOf (streamBody hrm tokens) = tokens.map (fun t => GenerationChunk.mk t) := by
  induction tokens with
  | nil => rfl
  | cons t ts ih =>
    cases hrm <;>
      simp only [streamBody, chunksOf, List.filterMap_cons, List.filterMap_append,
        List.nil_append, List.cons_append, List.map_cons, if_true, if_false] at ih ⊢ <;>
      simp [ih]

theorem notifiedTokens_streamBody (hrm : Bool) (tokens : List String) :
    notifiedTokens (streamBody hrm tokens) = if hrm then tokens else [] := by
  induction tokens with
  | nil => cases hrm <;> rfl
  | cons t ts ih =>
    cases hrm <;>
      simp only [streamBody, notifiedTokens, List.filterMap_cons, List.filterMap_append,
        List.nil_append, List.cons_append, if_true, if_false] at ih ⊢ <;>
      simp [ih]

theorem chunksOf_streamTrace (llm : DeepSparse) (prompt : String)
    (stop : Option (List String)) (hrm : Bool) :
    chunksOf (llm.streamTrace prompt stop hrm) =
      (llm.pipeline.streamTokens prompt).map (fun t => GenerationChunk.mk t) := by
  simp [DeepSparse.streamTrace, chunksOf, List.filterMap_cons, List.filterMap_append]
  simpa [chunksOf] using chunksOf_streamBody hrm (llm.pipeline.streamTokens prompt)

theorem chunksOf_astreamTrace (llm : DeepSparse) (prompt : String)
    (stop : Option (List String)) (hrm : Bool) :
    chunksOf (llm.astreamTrace prompt stop hrm) =
      (llm.pipeline.streamTokens prompt).map (fun t => GenerationChunk.mk t) :=
  chunksOf_streamTrace llm prompt stop hrm

theorem notifiedTokens_streamTrace (llm : DeepSparse) (prompt : String)
    (stop : Option (List String)) (hrm : Bool) :
    notifiedTokens (llm.streamTrace prompt stop hrm) =
      if hrm then llm.pipeline.streamTokens prompt else [] := by
  simp [DeepSparse.streamTrace, notifiedTokens, List.filterMap_cons, List.filterMap_append]
  simpa [notifiedTokens] using notifiedTokens_streamBody hrm (llm.pipeline.streamTokens prompt)

theorem notifiedTokens_astreamTrace (llm : DeepSparse) (prompt : String)
    (stop : Option (List String)) (hrm : Bool) :
    notifiedTokens (llm.astreamTrace prompt stop hrm) =
      if hrm then llm.pipeline.streamTokens prompt else [] :=
  notifiedTokens_streamTrace llm prompt stop hrm

theorem map_text_map_mk (tokens : List String) :
    (tokens.map (fun t => GenerationChunk.mk t)).map GenerationChunk.text = tokens := by
  simp [List.map_map, Function.comp_def]

theorem map_text_comp_mk (tokens : List String) :
    tokens.map (GenerationChunk.text ∘ fun t => GenerationChunk.mk t) = tokens := by
  simp [Function.comp_def]

/-- Claim C1: whenever synchronous or asynchronous generate obtains a
full text and a non-empty stop list was supplied, the returned string
is the text truncated at the earliest occurrence of any stop sequence
(each treated as a literal string), and it is the text unmodified when
no stop sequence occurs in it. -/
theorem stop_truncation_correct (llm : DeepSparse) (prompt : String)
    (stop : List String) (t : String)
    (hstop : stop ≠ [])
    (hfull : (llm.fullTextTraced prompt (some stop) false).2 = some t) :
    llm.call prompt (some stop) =
      some (String.mk (specStopTruncate (stop.map String.data) t.data)) ∧
    llm.acall prompt (some stop) =
      some (String.mk (specStopTruncate (stop.map String.data) t.data)) ∧
    (matchPositions (stop.map String.data) t.data = [] →
      llm.call prompt (some stop) = some t) := by
  have hafull : (llm.afullTextTraced prompt (some stop) false).2 = some t := by
    rw [afullTextTraced_eq]; exact hfull
  have hcall : llm.call prompt (some stop) = some (enforce_stop_tokens t stop) := by
    simp [DeepSparse.call, DeepSparse.callTraced, hfull, applyStop]
  have hacall : llm.acall prompt (some stop) = some (enforce_stop_tokens t stop) := by
    simp [DeepSparse.acall, DeepSparse.acallTraced, hafull, applyStop]
  refine ⟨?_, ?_, ?_⟩
  · rw [hcall, enforce_stop_tokens_eq_spec t stop hstop]
  · rw [hacall, enforce_stop_tokens_eq_spec t stop hstop]
  · intro hmp
    rw [hcall, enforce_stop_tokens_eq_spec t stop hstop]
    simp only [specStopTruncate, hmp]

/-- Witness for C1: on the spec's example, generate with stop=["cat"]
returns "Once upon a time there was a ". -/
theorem stop_truncation_correct_witness :
    catLLM.call "Once upon a time" (some ["cat"]) = some "Once upon a time there was a " := by
  have h := stop_truncation_correct catLLM "Once upon a time" ["cat"]
    "Once upon a time there was a cat." (by decide) rfl
  rw [h.1]
  decide

/-- Claim C2: with streaming enabled, synchronous generate returns the
concatenation, in emission order, of the texts of all chunks the stream
produces (before stop truncation); when the engine is deterministic, in
the sense that its direct invocation's first sequence equals that
concatenation, the non-streaming path returns the same string. -/
theorem streaming_concat_matches_direct (llm : DeepSparse) (prompt : String)
    (hstream : llm.streaming = true)
    (hengine : (llm.pipeline.run prompt).sequences.head? =
      some (concatStrings (llm.pipeline.streamTokens prompt))) :
    llm.call prompt none = some (concatStrings (llm.pipeline.streamTokens prompt)) ∧
    ({ llm with streaming := false } : DeepSparse).call prompt none = llm.call prompt none := by
  have h1 : llm.call prompt none = some (concatStrings (llm.pipeline.streamTokens prompt)) := by
    simp [DeepSparse.call, DeepSparse.callTraced, DeepSparse.fullTextTraced, hstream,
      applyStop, chunksOf_streamTrace, map_text_map_mk, map_text_comp_mk]
  refine ⟨h1, ?_⟩
  rw [h1]
  simp [DeepSparse.call, DeepSparse.callTraced, DeepSparse.fullTextTraced, applyStop, hengine]

/-- Witness for C2: an engine emitting chunks
["Once", " upon", " a", " time"] makes synchronous generate return
"Once upon a time". -/
theorem streaming_concat_matches_direct_witness :
    streamLLM.call "Once" none = some "Once upon a time" := by
  have h := streaming_concat_matches_direct streamLLM "Once" rfl (by decide)
  rw [h.1]
  decide

/-- Claim C3: for every prompt and an empty stop list, synchronous and
asynchronous generate compute the identical result on the same engine
(_acall is a textual copy of _call in the source). -/
theorem sync_async_generate_agree (llm : DeepSparse) (prompt : String) :
    llm.call prompt (some []) = llm.acall prompt (some []) := rfl

/-- Claim C4: with streaming disabled, synchronous generate performs
exactly one pipeline invocation, with the prompt, and its full output
(before any stop truncation) is the first element of the sequence list
the pipeline returns. -/
theorem nonstreaming_invokes_pipeline_once (llm : DeepSparse) (prompt : String)
    (stop : Option (List String)) (hrm : Bool)
    (h : llm.streaming = false) :
    (llm.callTraced prompt stop hrm).1 = [CallEvent.pipelineInvoked prompt] ∧
    llm.call prompt none = (llm.pipeline.run prompt).sequences.head? := by
  constructor
  · simp [DeepSparse.callTraced, DeepSparse.fullTextTraced, h]
  · simp only [DeepSparse.call, DeepSparse.callTraced, DeepSparse.fullTextTraced, h,
      Bool.false_eq_true, if_false]
    cases (llm.pipeline.run prompt).sequences.head? <;> simp [applyStop]

/-- Witness for C4: the concrete non-streaming adapter performs the
single pipeline invocation and returns the engine's first sequence. -/
theorem nonstreaming_invokes_pipeline_once_witness :
    (catLLM.callTraced "p" none false).1 = [CallEvent.pipelineInvoked "p"] ∧
    catLLM.call "p" none = some "Once upon a time there was a cat." := by
  have h := nonstreaming_invokes_pipeline_once catLLM "p" none false rfl
  exact ⟨h.1, by rw [h.2]; rfl⟩

/-- Claim C5: the streaming operations ignore the stop argument
entirely (the trace is independent of it), emit every engine token as a
chunk unmodified, and stop truncation is applied only after full
concatenation in the non-stream-consuming caller. -/
theorem stream_ignores_stop_and_passes_tokens (llm : DeepSparse) (prompt : String)
    (stop1 stop2 : Option (List String)) (hrm : Bool) :
    llm.streamTrace prompt stop1 hrm = llm.streamTrace prompt stop2 hrm ∧
    llm.astreamTrace prompt stop1 hrm = llm.astreamTrace prompt stop2 hrm ∧
    (chunksOf (llm.streamTrace prompt stop1 hrm)).map GenerationChunk.text =
      llm.pipeline.streamTokens prompt ∧
    (chunksOf (llm.astreamTrace prompt stop1 hrm)).map GenerationChunk.text =
      llm.pipeline.streamTokens prompt ∧
    (∀ st : List String,
      ({ llm with streaming := true } : DeepSparse).call prompt (some st) =
        some (enforce_stop_tokens (concatStrings (llm.pipeline.streamTokens prompt)) st)) := by
  refine ⟨rfl, rfl, ?_, ?_, ?_⟩
  · rw [chunksOf_streamTrace, map_text_map_mk]
  · rw [chunksOf_astreamTrace, map_text_map_mk]
  · intro st
    simp [DeepSparse.call, DeepSparse.callTraced, DeepSparse.fullTextTraced, applyStop,
      chunksOf_streamTrace, map_text_map_mk, map_text_comp_mk]

/-- Claim C6: construction fails with a DependencyMissing error naming
the install step, and performs no pipeline-creation call, when the
deepsparse package cannot be imported; when it can, construction calls
pipeline creation exactly once with task "text_generation", the model
identifier, and the user configuration merged in as keyword options. -/
theorem construction_dependency_gate (env : Env) (model : String)
    (config : Option (List (String × String))) :
    (env.deepsparseAvailable = false →
      (validate_environment env model config).1 = [] ∧
      (validate_environment env model config).2 = Except.error (ConstructError.dependencyMissing
        "Could not import `deepsparse` package. Please install it with `pip install deepsparse`")) ∧
    (env.deepsparseAvailable = true →
      (validate_environment env model config).1 =
        [CreateEvent.createInvoked "text_generation" model (config.getD [])] ∧
      (validate_environment env model config).2 =
        Except.ok (env.createPipeline "text_generation" model (config.getD []))) := by
  constructor
  · intro h; simp [validate_environment, h]
  · intro h; simp [validate_environment, h]

/-- Witness for C6: in a concrete environment without the package the
error is raised with no creation call; with the package present the
creation entry point is invoked with task "text_generation". -/
theorem construction_dependency_gate_witness :
    (validate_environment envMissing "m" none).1 = [] ∧
    (validate_environment envMissing "m" none).2 = Except.error (ConstructError.dependencyMissing
      "Could not import `deepsparse` package. Please install it with `pip install deepsparse`") ∧
    (validate_environment envPresent "m" none).1 =
      [CreateEvent.createInvoked "text_generation" "m" []] := by
  refine ⟨((construction_dependency_gate envMissing "m" none).1 rfl).1,
    ((construction_dependency_gate envMissing "m" none).1 rfl).2,
    ((construction_dependency_gate envPresent "m" none).2 rfl).1⟩

/-- Claim C8: along any streaming trace, when a callback observer is
supplied every produced chunk is reported exactly once, carrying the
chunk's text, in emission order; with no observer, nothing is
reported. -/
theorem stream_callback_notification (llm : DeepSparse) (prompt : String)
    (stop : Option (List String)) :
    notifiedTokens (llm.streamTrace prompt stop true) =
      (chunksOf (llm.streamTrace prompt stop true)).map GenerationChunk.text ∧
    notifiedTokens (llm.streamTrace prompt stop false) = [] ∧
    notifiedTokens (llm.astreamTrace prompt stop true) =
      (chunksOf (llm.astreamTrace prompt stop true)).map GenerationChunk.text ∧
    notifiedTokens (llm.astreamTrace prompt stop false) = [] := by
  refine ⟨?_, ?_, ?_, ?_⟩ <;>
    simp [notifiedTokens_streamTrace, notifiedTokens_astreamTrace,
      chunksOf_streamTrace, chunksOf_astreamTrace, map_text_map_mk, map_text_comp_mk]

/-- Claim C9: supplying the empty list as the stop argument makes both
generate variants return the empty string (the empty regex alternation
matches before the first character), not the engine's output. -/
theorem empty_stop_list_yields_empty (llm : DeepSparse) (prompt : String) (t : String)
    (hfull : (llm.fullTextTraced prompt (some []) false).2 = some t) :
    llm.call prompt (some []) = some "" ∧
    llm.acall prompt (some []) = some "" ∧
    (t ≠ "" → llm.call prompt (some []) ≠ some t) := by
  have hafull : (llm.afullTextTraced prompt (some []) false).2 = some t := by
    rw [afullTextTraced_eq]; exact hfull
  have he : enforce_stop_tokens t [] = "" := rfl
  have h1 : llm.call prompt (some []) = some "" := by
    simp [DeepSparse.call, DeepSparse.callTraced, hfull, applyStop, he]
  have h2 : llm.acall prompt (some []) = some "" := by
    simp [DeepSparse.acall, DeepSparse.acallTraced, hafull, applyStop, he]
  refine ⟨h1, h2, ?_⟩
  intro ht hc
  rw [h1] at hc
  exact ht (Option.some_injective _ hc).symm

/-- Witness for C9: an engine producing "hello" still yields the empty
string under stop=[]. -/
theorem empty_stop_list_yields_empty_witness :
    helloLLM.call "p" (some []) = some "" ∧ helloLLM.call "p" (some []) ≠ some "hello" := by
  have h := empty_stop_list_yields_empty helloLLM "p" "hello" rfl
  exact ⟨h.1, h.2.2 (by decide)⟩

/-- Claim C10: an adapter constructed without mentioning the streaming
flag has streaming disabled, and both generate variants then perform a
single direct pipeline invocation with no worker thread and no chunk
emission. -/
theorem streaming_defaults_to_disabled (p : Pipeline) (m : String)
    (c : Option (List (String × String))) (prompt : String)
    (stop : Option (List String)) (hrm : Bool) :
    ({ pipeline := p, model := m, config := c } : DeepSparse).streaming = false ∧
    (({ pipeline := p, model := m, config := c } : DeepSparse).callTraced prompt stop hrm).1 =
      [CallEvent.pipelineInvoked prompt] ∧
    (({ pipeline := p, model := m, config := c } : DeepSparse).acallTraced prompt stop hrm).1 =
      [CallEvent.pipelineInvoked prompt] ∧
    CallEvent.workerStarted ∉
      (({ pipeline := p, model := m, config := c } : DeepSparse).callTraced prompt stop hrm).1 ∧
    (∀ ch : GenerationChunk, CallEvent.chunkYielded ch ∉
      (({ pipeline := p, model := m, config := c } : DeepSparse).callTraced prompt stop hrm).1) := by
  refine ⟨rfl, ?_, ?_, ?_, ?_⟩ <;>
    simp [DeepSparse.callTraced, DeepSparse.acallTraced, DeepSparse.fullTextTraced,
      DeepSparse.afullTextTraced]

/-- Witness for C10: a concrete adapter built without the streaming
field has it disabled and starts no worker. -/
theorem streaming_defaults_to_disabled_witness :
    ({ pipeline := catPipeline, model := "m", config := none } : DeepSparse).streaming = false ∧
    CallEvent.workerStarted ∉
      (({ pipeline := catPipeline, model := "m", config := none } : DeepSparse).callTraced
        "p" none false).1 := by
  have h := streaming_defaults_to_disabled catPipeline "m" none "p" none false
  exact ⟨h.1, h.2.2.2.1⟩

end DeepSparseSpec
